import Mathlib

/-!
Verification development for the go-jwksclient repository: a JWKS client that
fetches and caches a key set from an HTTP endpoint, honoring Cache-Control,
Age and Expires headers subject to configured floor/ceiling cache durations,
caching errors, and serving stale keys for a grace window after failures.

Modelling conventions:
- `time.Time` and `time.Duration` are both modelled as `Int` (a count of
  seconds); `t.Add d` is `t + d`, `a.Before b` is `a < b`, `a.After b` is
  `b < a`, and the zero `time.Time` sentinel (`IsZero`) is the value `0`.
- Go's `(value, ok, error)` triples become `Except E (Option A)`, and nilable
  pointers/interfaces become `Option`.
- `http.Header` is modelled by the three headers this code reads
  (`Cache-Control`, `Age`, `Expires`); `Get` of an absent header is `""`,
  exactly as in Go.
- The network fetch performed by `Client.get` is modelled as an explicit
  `FetchOutcome` argument to `Refresh` (the outcome of the HTTP round trip),
  since the transport is an external collaborator.
- `time.ParseDuration (s ++ "s")` is modelled for decimal-digit strings `s`
  (the grammar the cache headers under verification use); Go additionally
  accepts signs, fractions and embedded units, which no claim quantifies
  over.  Likewise `time.Parse (time.RFC1123, s)` is modelled as a parse that
  succeeds exactly on decimal-digit strings read as an absolute timestamp;
  the RFC1123 date grammar itself is irrelevant to every claim.
-/

namespace JwksClient

/-- A key set, opaque to this client: parsing the JSON Web Key document is
delegated to the external `jwk` codec.  We model it as a tagged value. -/
structure KeySet where
  tag : Nat
deriving DecidableEq, Repr

/-- The three response headers consumed by `headers.go`; an absent header is
the empty string, matching `http.Header.Get`. -/
structure Header where
  cacheControl : String
  age : String
  expiresHdr : String
deriving DecidableEq, Repr

/-- The header with no fields set; also stands for a nil `http.Header`. -/
def emptyHeader : Header := ⟨"", "", ""⟩

/-- Errors produced by the expiry computation in `headers.go`; each tag
corresponds to one `fmt.Errorf`/`errors.New` site. -/
inductive HeaderErr where
  | maxAgeParse
  | ageParse
  | negativeAge
  | expiresParse
  | noCacheHeaders
deriving DecidableEq, Repr

/-- Errors surfaced by the client; `fetchFailed` stands for any error coming
out of `Client.get` (transport, body read, non-200 status, JSON parse), with
a tag in place of the Go error message, and `keysNotFetched` models
`ErrKeysNotFetched` from `errors.go`. -/
inductive GoError where
  | keysNotFetched
  | fetchFailed (tag : Nat)
deriving DecidableEq, Repr

/-- Models `strings.Split s ","` on the character list of `s`: the result is
never empty and empty fields are kept. -/
def splitOnComma : List Char → List (List Char)
  | [] => [[]]
  | c :: rest =>
    if c = ',' then [] :: splitOnComma rest
    else
      match splitOnComma rest with
      | [] => [[c]]
      | g :: gs => (c :: g) :: gs

def isSpaceChar (c : Char) : Bool := c = ' ' || c = '\t' || c = '\n' || c = '\r'

def dropLeadingSpace : List Char → List Char
  | [] => []
  | c :: rest => if isSpaceChar c then dropLeadingSpace rest else c :: rest

/-- Models `strings.TrimSpace` (for the ASCII whitespace that can occur in
these header values). -/
def trimSpace (s : List Char) : List Char :=
  dropLeadingSpace (dropLeadingSpace s.reverse).reverse

/-- Models `strings.HasPrefix s p`. -/
def startsWithChars : List Char → List Char → Bool
  | _, [] => true
  | [], _ :: _ => false
  | a :: as, b :: bs => a = b && startsWithChars as bs

/-- Accumulates the decimal value of a digit string; `none` on any non-digit
character. -/
def parseDigits : List Char → Nat → Option Nat
  | [], acc => some acc
  | c :: rest, acc =>
    if c.isDigit then parseDigits rest (acc * 10 + (c.toNat - 48)) else none

/-- Models `time.ParseDuration (s ++ "s")` for the decimal-digit strings the
claims quantify over: the number of seconds as a duration, `none` when the
string is empty or not all digits. -/
def parseSecondsChars (s : List Char) : Option Int :=
  match s with
  | [] => none
  | _ => (parseDigits s 0).map Int.ofNat

/-- The `cacheControlFieldMaxAge + "="` constant of `headers.go`. -/
def maxAgeEq : List Char := "max-age=".data

/-- The `cacheControlFieldSMaxAge + "="` constant of `headers.go`. -/
def sMaxAgeEq : List Char := "s-maxage=".data

/-- The loop of `parseMaxAge`: walks the comma-separated parts; a `max-age=`
part takes its value and stops (`break`), an `s-maxage=` part records its
value and keeps scanning (`continue`), any other part is skipped.  `acc` is
the current value of Go's `maxAgeStr` variable. -/
def findMaxAgeChars : List (List Char) → List Char → List Char
  | [], acc => acc
  | p :: rest, acc =>
    let q := trimSpace p
    if startsWithChars q maxAgeEq then q.drop maxAgeEq.length
    else if startsWithChars q sMaxAgeEq then findMaxAgeChars rest (q.drop sMaxAgeEq.length)
    else findMaxAgeChars rest acc

/-- Models `parseMaxAge` of `headers.go`: extracts `max-age` (preferred) or
`s-maxage` from the Cache-Control header; `.ok none` when the header or the
directive is absent, `.error` when the value does not parse as a duration. -/
def parseMaxAge (h : Header) : Except HeaderErr (Option Int) :=
  let cch := h.cacheControl.data
  if cch = [] then .ok none
  else
    let s := findMaxAgeChars (splitOnComma cch) []
    if s = [] then .ok none
    else
      match parseSecondsChars s with
      | none => .error .maxAgeParse
      | some d => .ok (some d)

/-- Models `parseAge` of `headers.go`: the Age header as a duration. -/
def parseAge (h : Header) : Except HeaderErr (Option Int) :=
  let s := h.age.data
  if s = [] then .ok none
  else
    match parseSecondsChars s with
    | none => .error .ageParse
    | some d => .ok (some d)

/-- Models `parseExpires` of `headers.go`: the Expires header as an absolute
time (see the RFC1123 modelling note at the top of the file). -/
def parseExpiresTime (h : Header) : Except HeaderErr (Option Int) :=
  let s := h.expiresHdr.data
  if s = [] then .ok none
  else
    match parseDigits s 0 with
    | none => .error .expiresParse
    | some t => .ok (some (Int.ofNat t))

/-- Models `expiresAfter` of `headers.go`: the cache expiration time derived
from Cache-Control/Age/Expires, or an error when they are absent or
malformed.  With `max-age` present, `totalAge` starts at `maxAge`, an `Age`
header is subtracted from it, and a negative result is an error. -/
def expiresAfter (now : Int) (h : Header) : Except HeaderErr Int :=
  match parseMaxAge h with
  | .error e => .error e
  | .ok (some maxAge) =>
    match parseAge h with
    | .error e => .error e
    | .ok (some age) =>
      let totalAge := maxAge - age
      if totalAge < 0 then .error .negativeAge
      else .ok (now + totalAge)
    | .ok none => .ok (now + maxAge)
  | .ok none =>
    match parseExpiresTime h with
    | .error e => .error e
    | .ok none => .error .noCacheHeaders
    | .ok (some t) => .ok t

/-- The `Config` of `config.go` (fields the cache engine reads). -/
structure Config where
  url : String
  cacheMin : Int
  cacheMax : Int
  cacheErrors : Int
  exitOnError : Bool
  keepStaleKeys : Int
deriving DecidableEq, Repr

/-- The cached fields of `Client` in `client.go`.  `keysStaleSince = 0`
models the zero `time.Time` (`IsZero`). -/
structure ClientState where
  cacheExpiresAfter : Int
  cachedResponse : Option (List Nat)
  cachedHeaders : Option Header
  cachedJWKSet : Option KeySet
  cachedError : Option GoError
  keysStaleSince : Int
deriving DecidableEq, Repr

/-- The zero-valued cache of a freshly constructed `Client` (`New`). -/
def initialState : ClientState := ⟨0, none, none, none, none, 0⟩

/-- Models `Client.GetKeySet`: returns the Go pair `(jwk.Set, error)`, both
nilable exactly as in the source. -/
def GetKeySet (cfg : Config) (now : Int) (c : ClientState) :
    Option KeySet × Option GoError :=
  if c.cachedError.isSome &&
      (decide (c.keysStaleSince + cfg.keepStaleKeys < now) || c.cachedJWKSet.isNone) then
    (none, c.cachedError)
  else if c.cachedJWKSet.isNone then
    (none, some GoError.keysNotFetched)
  else
    (c.cachedJWKSet, none)

/-- The outcome of one `Client.get` round trip: on success a key set, body
and headers; on failure an error tag with whatever body/headers the failing
step still produced (transport errors produce neither, a non-200 status or a
parse failure still carries body and headers). -/
inductive FetchOutcome where
  | ok (ks : KeySet) (body : List Nat) (headers : Header)
  | fail (tag : Nat) (body : Option (List Nat)) (headers : Option Header)
deriving DecidableEq, Repr

def FetchOutcome.ks : FetchOutcome → Option KeySet
  | .ok k _ _ => some k
  | .fail _ _ _ => none

def FetchOutcome.body : FetchOutcome → Option (List Nat)
  | .ok _ b _ => some b
  | .fail _ b _ => b

def FetchOutcome.headers : FetchOutcome → Option Header
  | .ok _ _ h => some h
  | .fail _ _ h => h

def FetchOutcome.err : FetchOutcome → Option GoError
  | .ok _ _ _ => none
  | .fail t _ _ => some (GoError.fetchFailed t)

/-- Models `Client.updateExpiresAfter`: on a failed fetch, cache the error
for `cacheErrors` when positive, else leave the expiry untouched; on a
successful fetch, take the header-derived expiry (falling back to
`now + cacheMin` when the header computation fails), clamp it to the
`cacheMax` ceiling and then to the `cacheMin` floor. -/
def updateExpiresAfter (cfg : Config) (now : Int) (headers : Option Header)
    (err : Option GoError) (c : ClientState) : ClientState :=
  match err with
  | some _ =>
    if 0 < cfg.cacheErrors then { c with cacheExpiresAfter := now + cfg.cacheErrors }
    else c
  | none =>
    match expiresAfter now (headers.getD emptyHeader) with
    | .error _ => { c with cacheExpiresAfter := now + cfg.cacheMin }
    | .ok e =>
      let e1 := if now + cfg.cacheMax < e then now + cfg.cacheMax else e
      let e2 := if e1 < now + cfg.cacheMin then now + cfg.cacheMin else e1
      { c with cacheExpiresAfter := e2 }

/-- Models `Client.Refresh`: when not forced and the cache is still valid
(`now` is not after `cacheExpiresAfter`), a no-op returning `(false, nil)`;
otherwise one fetch cycle: stamp `keysStaleSince` on the first consecutive
failure, store headers/body/error, on success clear `keysStaleSince` and
install the key set, recompute the expiry, and return `(true, err)`.
The fetch outcome is the explicit `fetch` argument. -/
def Refresh (cfg : Config) (now : Int) (fetch : FetchOutcome) (force : Bool)
    (c : ClientState) : ClientState × Bool × Option GoError :=
  if !force && !(decide (c.cacheExpiresAfter < now)) then
    (c, false, none)
  else
    let err := fetch.err
    let c1 : ClientState :=
      { c with
        keysStaleSince := if err.isSome && c.keysStaleSince = 0 then now else c.keysStaleSince
        cachedHeaders := fetch.headers
        cachedResponse := fetch.body
        cachedError := err }
    let c2 : ClientState :=
      match err with
      | none => { c1 with keysStaleSince := 0, cachedJWKSet := fetch.ks }
      | some _ => c1
    let c3 := updateExpiresAfter cfg now fetch.headers err c2
    (c3, true, err)

deriving instance DecidableEq for Except

/-! Helper lemmas: `updateExpiresAfter` writes only `cacheExpiresAfter`. -/

theorem updateExpiresAfter_keysStaleSince (cfg : Config) (now : Int)
    (headers : Option Header) (err : Option GoError) (c : ClientState) :
    (updateExpiresAfter cfg now headers err c).keysStaleSince = c.keysStaleSince := by
  unfold updateExpiresAfter
  rcases err with _ | e <;> simp only
  · rcases expiresAfter now (headers.getD emptyHeader) with e | t <;> simp
  · split <;> simp

theorem updateExpiresAfter_cachedError (cfg : Config) (now : Int)
    (headers : Option Header) (err : Option GoError) (c : ClientState) :
    (updateExpiresAfter cfg now headers err c).cachedError = c.cachedError := by
  unfold updateExpiresAfter
  rcases err with _ | e <;> simp only
  · rcases expiresAfter now (headers.getD emptyHeader) with e | t <;> simp
  · split <;> simp

theorem updateExpiresAfter_cachedJWKSet (cfg : Config) (now : Int)
    (headers : Option Header) (err : Option GoError) (c : ClientState) :
    (updateExpiresAfter cfg now headers err c).cachedJWKSet = c.cachedJWKSet := by
  unfold updateExpiresAfter
  rcases err with _ | e <;> simp only
  · rcases expiresAfter now (headers.getD emptyHeader) with e | t <;> simp
  · split <;> simp

/-- When a refresh is due (forced, or the cache expired), the freshness
guard of `Refresh` does not fire. -/
theorem refresh_runs (cfg : Config) (now : Int) (f : FetchOutcome) (force : Bool)
    (c : ClientState) (hrun : force = true ∨ c.cacheExpiresAfter < now) :
    Refresh cfg now f force c =
      (updateExpiresAfter cfg now f.headers f.err
        (match f.err with
         | none =>
           { c with
             keysStaleSince := 0
             cachedHeaders := f.headers
             cachedResponse := f.body
             cachedError := f.err
             cachedJWKSet := f.ks }
         | some _ =>
           { c with
             keysStaleSince := if f.err.isSome && c.keysStaleSince = 0 then now else c.keysStaleSince
             cachedHeaders := f.headers
             cachedResponse := f.body
             cachedError := f.err }),
       true, f.err) := by
  unfold Refresh
  have hguard : (!force && !(decide (c.cacheExpiresAfter < now))) = false := by
    rcases hrun with h | h <;> simp [h]
  rw [hguard]
  rcases hf : f.err with _ | e <;> simp [hf]

/-- C9: Refresh reports the attempt, not its success: whenever a refresh
attempt actually runs (forced, or the cache had expired), `Refresh` returns
`refreshed = true` paired with the attempt's error — `true` even when the
attempt failed; success is indicated solely by the error being `none`. -/
theorem refresh_reports_attempt (cfg : Config) (now : Int) (f : FetchOutcome)
    (force : Bool) (c : ClientState)
    (hrun : force = true ∨ c.cacheExpiresAfter < now) :
    (Refresh cfg now f force c).2 = (true, f.err) := by
  rw [refresh_runs cfg now f force c hrun]

/-- C9 witness: a forced refresh with a failing fetch still returns
`refreshed = true`, paired with the fetch's error. -/
theorem refresh_reports_attempt_witness :
    (Refresh ⟨"u", 60, 3600, 30, false, 300⟩ 10 (.fail 7 none none) true initialState).2
      = (true, some (GoError.fetchFailed 7)) := by
  exact refresh_reports_attempt ⟨"u", 60, 3600, 30, false, 300⟩ 10 (.fail 7 none none) true
    initialState (Or.inl rfl)

/-- C10: GetKeySet is total over its two outcomes: for every cache state it
returns either a non-nil key set with a nil error or a nil key set with a
non-nil error — never both nil — and on the initial (never-fetched) state it
returns the distinct `ErrKeysNotFetched` error. -/
theorem getKeySet_total (cfg : Config) (now : Int) (c : ClientState) :
    ((∃ ks, GetKeySet cfg now c = (some ks, none)) ∨
      (∃ e, GetKeySet cfg now c = (none, some e))) ∧
    GetKeySet cfg now c ≠ (none, none) ∧
    GetKeySet cfg now initialState = (none, some GoError.keysNotFetched) := by
  refine ⟨?_, ?_, by simp [GetKeySet, initialState]⟩
  · unfold GetKeySet
    split
    · rename_i hguard
      rcases he : c.cachedError with _ | e
      · rw [he] at hguard; simp at hguard
      · exact Or.inr ⟨e, by simp [he]⟩
    · split
      · exact Or.inr ⟨GoError.keysNotFetched, rfl⟩
      · rename_i hks
        rcases hk : c.cachedJWKSet with _ | ks
        · rw [hk] at hks; simp at hks
        · exact Or.inl ⟨ks, by simp [hk]⟩
  · unfold GetKeySet
    split
    · rename_i hguard
      rcases he : c.cachedError with _ | e
      · rw [he] at hguard; simp at hguard
      · simp [he]
    · split
      · simp
      · rename_i hks
        rcases hk : c.cachedJWKSet with _ | ks
        · rw [hk] at hks; simp at hks
        · simp [hk]

/-- C1: stale-serving policy of GetKeySet: with a current error set, if the
grace window `staleSince + keepStaleKeys` has already passed or no key set
was ever loaded, the cached error is returned; otherwise, with a previously
loaded key set and the grace window not yet passed, that last good key set
is returned even though the most recent fetch attempt failed. -/
theorem getKeySet_stale_policy (cfg : Config) (now : Int) (c : ClientState) :
    (∀ e, c.cachedError = some e →
      (c.keysStaleSince + cfg.keepStaleKeys < now ∨ c.cachedJWKSet = none) →
      GetKeySet cfg now c = (none, some e)) ∧
    (∀ e ks, c.cachedError = some e →
      ¬ c.keysStaleSince + cfg.keepStaleKeys < now →
      c.cachedJWKSet = some ks →
      GetKeySet cfg now c = (some ks, none)) := by
  constructor
  · intro e he hcond
    rcases hcond with h | h
    · simp [GetKeySet, he, h]
    · simp [GetKeySet, he, h]
  · intro e ks he hnot hks
    simp [GetKeySet, he, hks, hnot]

/-- C1 witness: with `keepStaleKeys = 300` and a failure first observed at
time 100, a call at time 401 (grace window passed) returns the cached fetch
error, while a call at time 400 (still inside the window) returns the key
set from the last successful fetch. -/
theorem getKeySet_stale_policy_witness :
    GetKeySet ⟨"u", 60, 3600, 30, false, 300⟩ 401
        ⟨0, none, none, some ⟨5⟩, some (GoError.fetchFailed 2), 100⟩
      = (none, some (GoError.fetchFailed 2)) ∧
    GetKeySet ⟨"u", 60, 3600, 30, false, 300⟩ 400
        ⟨0, none, none, some ⟨5⟩, some (GoError.fetchFailed 2), 100⟩
      = (some ⟨5⟩, none) := by
  constructor
  · exact (getKeySet_stale_policy ⟨"u", 60, 3600, 30, false, 300⟩ 401
      ⟨0, none, none, some ⟨5⟩, some (GoError.fetchFailed 2), 100⟩).1
      (GoError.fetchFailed 2) rfl (Or.inl (by decide))
  · exact (getKeySet_stale_policy ⟨"u", 60, 3600, 30, false, 300⟩ 400
      ⟨0, none, none, some ⟨5⟩, some (GoError.fetchFailed 2), 100⟩).2
      (GoError.fetchFailed 2) ⟨5⟩ rfl (by decide) rfl

/-- C6: staleSince invariant: across refresh attempts that run,
`keysStaleSince` records the first failure of the current consecutive-failure
run — a failed refresh stamps it with the current time only when it was
previously empty (zero), a subsequent failed refresh leaves it unchanged,
and a successful refresh resets it to empty. -/
theorem staleSince_invariant (cfg : Config) (now : Int) (f : FetchOutcome)
    (force : Bool) (c : ClientState)
    (hrun : force = true ∨ c.cacheExpiresAfter < now) :
    (f.err.isSome → c.keysStaleSince = 0 →
      (Refresh cfg now f force c).1.keysStaleSince = now) ∧
    (f.err.isSome → c.keysStaleSince ≠ 0 →
      (Refresh cfg now f force c).1.keysStaleSince = c.keysStaleSince) ∧
    (f.err = none → (Refresh cfg now f force c).1.keysStaleSince = 0) := by
  rw [refresh_runs cfg now f force c hrun]
  rcases hf : f.err with _ | e
  · simp [hf, updateExpiresAfter_keysStaleSince]
  · simp only [hf]
    refine ⟨?_, ?_, by simp⟩
    · intro _ h0
      simp [updateExpiresAfter_keysStaleSince, h0]
    · intro _ hne
      simp [updateExpiresAfter_keysStaleSince, hne]

/-- C6 witness: at time 50, a failed refresh over an empty `keysStaleSince`
stamps it to 50; over `keysStaleSince = 30` it leaves 30; a successful
refresh resets it to 0. -/
theorem staleSince_invariant_witness :
    (Refresh ⟨"u", 60, 3600, 30, false, 300⟩ 50 (.fail 1 none none) true
        initialState).1.keysStaleSince = 50 ∧
    (Refresh ⟨"u", 60, 3600, 30, false, 300⟩ 50 (.fail 1 none none) true
        ⟨0, none, none, none, some (GoError.fetchFailed 1), 30⟩).1.keysStaleSince = 30 ∧
    (Refresh ⟨"u", 60, 3600, 30, false, 300⟩ 50 (.ok ⟨5⟩ [] emptyHeader) true
        ⟨0, none, none, none, some (GoError.fetchFailed 1), 30⟩).1.keysStaleSince = 0 := by
  refine ⟨?_, ?_, ?_⟩
  · exact (staleSince_invariant ⟨"u", 60, 3600, 30, false, 300⟩ 50 (.fail 1 none none) true
      initialState (Or.inl rfl)).1 (by decide) rfl
  · exact (staleSince_invariant ⟨"u", 60, 3600, 30, false, 300⟩ 50 (.fail 1 none none) true
      ⟨0, none, none, none, some (GoError.fetchFailed 1), 30⟩ (Or.inl rfl)).2.1 (by decide)
      (by decide)
  · exact (staleSince_invariant ⟨"u", 60, 3600, 30, false, 300⟩ 50 (.ok ⟨5⟩ [] emptyHeader) true
      ⟨0, none, none, none, some (GoError.fetchFailed 1), 30⟩ (Or.inl rfl)).2.2 rfl

/-- C8: error-caching frame effect: when the fetch of a running refresh
fails, the header-based expiry procedure is skipped entirely (the result
does not depend on the response headers); the expiry becomes
`now + cacheErrors` when `cacheErrors > 0`, and with `cacheErrors = 0` the
`cacheExpiresAfter` field is left unchanged. -/
theorem error_caching_frame (cfg : Config) (now : Int) (t : Nat)
    (b : Option (List Nat)) (hd : Option Header) (force : Bool) (c : ClientState)
    (hrun : force = true ∨ c.cacheExpiresAfter < now) :
    (0 < cfg.cacheErrors →
      (Refresh cfg now (.fail t b hd) force c).1.cacheExpiresAfter = now + cfg.cacheErrors) ∧
    (cfg.cacheErrors = 0 →
      (Refresh cfg now (.fail t b hd) force c).1.cacheExpiresAfter = c.cacheExpiresAfter) ∧
    (∀ hd1 hd2 (e : GoError) (c0 : ClientState),
      updateExpiresAfter cfg now hd1 (some e) c0 = updateExpiresAfter cfg now hd2 (some e) c0) := by
  rw [refresh_runs cfg now (.fail t b hd) force c hrun]
  refine ⟨?_, ?_, ?_⟩
  · intro hpos
    simp [FetchOutcome.err, updateExpiresAfter, hpos]
  · intro hzero
    simp [FetchOutcome.err, updateExpiresAfter, hzero]
  · intro hd1 hd2 e c0
    simp [updateExpiresAfter]

/-- C8 witness: at time 100 with `cacheErrors = 30`, a failed forced refresh
sets the expiry to 130; with `cacheErrors = 0` it leaves the expiry at its
previous value 80. -/
theorem error_caching_frame_witness :
    (Refresh ⟨"u", 60, 3600, 30, false, 300⟩ 100 (.fail 1 none none) true
        ⟨80, none, none, none, none, 0⟩).1.cacheExpiresAfter = 130 ∧
    (Refresh ⟨"u", 60, 3600, 0, false, 300⟩ 100 (.fail 1 none none) true
        ⟨80, none, none, none, none, 0⟩).1.cacheExpiresAfter = 80 := by
  constructor
  · exact (error_caching_frame ⟨"u", 60, 3600, 30, false, 300⟩ 100 1 none none true
      ⟨80, none, none, none, none, 0⟩ (Or.inl rfl)).1 (by decide)
  · exact (error_caching_frame ⟨"u", 60, 3600, 0, false, 300⟩ 100 1 none none true
      ⟨80, none, none, none, none, 0⟩ (Or.inl rfl)).2.1 rfl

/-- C5: header failure degrades to the floor without failing the fetch: for
a running refresh whose fetch succeeds but whose header calculation fails
(negative age, an unparseable value, or no cache headers at all), the cached
error remains nil, the call returns no error, and the installed expiry is
exactly `now + cacheMin`. -/
theorem header_failure_floor (cfg : Config) (now : Int) (force : Bool)
    (c : ClientState) (ks : KeySet) (body : List Nat) (hd : Header) (e : HeaderErr)
    (hrun : force = true ∨ c.cacheExpiresAfter < now)
    (hhdr : expiresAfter now hd = .error e) :
    (Refresh cfg now (.ok ks body hd) force c).1.cachedError = none ∧
    (Refresh cfg now (.ok ks body hd) force c).1.cacheExpiresAfter = now + cfg.cacheMin ∧
    (Refresh cfg now (.ok ks body hd) force c).2.2 = none := by
  rw [refresh_runs cfg now (.ok ks body hd) force c hrun]
  refine ⟨?_, ?_, rfl⟩
  · simp [FetchOutcome.err, updateExpiresAfter_cachedError]
  · simp [FetchOutcome.err, FetchOutcome.headers, updateExpiresAfter, hhdr]

/-- C5 witness: a successful forced fetch at time 100 whose response has no
cache headers at all keeps the cached error nil and installs the floor
expiry 100 + 60. -/
theorem header_failure_floor_witness :
    (Refresh ⟨"u", 60, 3600, 30, false, 300⟩ 100 (.ok ⟨5⟩ [] emptyHeader) true
        initialState).1.cachedError = none ∧
    (Refresh ⟨"u", 60, 3600, 30, false, 300⟩ 100 (.ok ⟨5⟩ [] emptyHeader) true
        initialState).1.cacheExpiresAfter = 100 + 60 ∧
    (Refresh ⟨"u", 60, 3600, 30, false, 300⟩ 100 (.ok ⟨5⟩ [] emptyHeader) true
        initialState).2.2 = none := by
  exact header_failure_floor ⟨"u", 60, 3600, 30, false, 300⟩ 100 true initialState
    ⟨5⟩ [] emptyHeader HeaderErr.noCacheHeaders (Or.inl rfl) (by decide)

/-- C3: clamp with floor priority: for a successful fetch with header-derived
expiry `E`, the installed expiry is `clamp(E, now+cacheMin, now+cacheMax)`
with the ceiling applied first and the floor second, i.e.
`max (now+cacheMin) (min E (now+cacheMax))`; whenever `cacheMin > cacheMax`
the floor wins and the result is `now + cacheMin`. -/
theorem clamp_floor_priority (cfg : Config) (now : Int) (hd : Header)
    (c : ClientState) (E : Int) (hE : expiresAfter now hd = .ok E) :
    (updateExpiresAfter cfg now (some hd) none c).cacheExpiresAfter
      = max (now + cfg.cacheMin) (min E (now + cfg.cacheMax)) ∧
    (cfg.cacheMax < cfg.cacheMin →
      (updateExpiresAfter cfg now (some hd) none c).cacheExpiresAfter
        = now + cfg.cacheMin) := by
  have h : (updateExpiresAfter cfg now (some hd) none c).cacheExpiresAfter
      = if (if now + cfg.cacheMax < E then now + cfg.cacheMax else E) < now + cfg.cacheMin
        then now + cfg.cacheMin
        else (if now + cfg.cacheMax < E then now + cfg.cacheMax else E) := by
    simp [updateExpiresAfter, hE]
  rw [h, max_def, min_def]
  constructor
  · split_ifs <;> omega
  · intro hlt
    split_ifs <;> omega

/-- C3 witness: with `cacheMin = 60`, `cacheMax = 3600`, a header expiry of
`now + 120` at `now = 0` is installed unclamped (120); with
`cacheMin = 200 > cacheMax = 100` and the same headers, the floor wins and
the installed expiry is `0 + 200`. -/
theorem clamp_floor_priority_witness :
    (updateExpiresAfter ⟨"u", 60, 3600, 30, false, 300⟩ 0
        (some ⟨"max-age=120", "", ""⟩) none initialState).cacheExpiresAfter
      = max (0 + 60) (min 120 (0 + 3600)) ∧
    (updateExpiresAfter ⟨"u", 200, 100, 30, false, 300⟩ 0
        (some ⟨"max-age=120", "", ""⟩) none initialState).cacheExpiresAfter
      = 0 + 200 := by
  constructor
  · exact (clamp_floor_priority ⟨"u", 60, 3600, 30, false, 300⟩ 0
      ⟨"max-age=120", "", ""⟩ initialState 120 (by decide)).1
  · exact (clamp_floor_priority ⟨"u", 200, 100, 30, false, 300⟩ 0
      ⟨"max-age=120", "", ""⟩ initialState 120 (by decide)).2 (by decide)

/-- C2 counterexample: with `cacheMax = 0` and `cacheMin = 10`, a successful
fetch at `now = 1000` whose headers yield the candidate expiry `1100 > now`
installs the expiry `1010 < 1100`: the `cacheMax` check did reduce the
expiry below the header-derived candidate, so 0 is not "no ceiling". -/
theorem cacheMaxZero_counterexample :
    expiresAfter 1000 ⟨"max-age=100", "", ""⟩ = .ok 1100 ∧
    (1000 : Int) < 1100 ∧
    (updateExpiresAfter ⟨"u", 10, 0, 0, false, 300⟩ 1000
        (some ⟨"max-age=100", "", ""⟩) none initialState).cacheExpiresAfter = 1010 ∧
    (1010 : Int) < 1100 := by
  refine ⟨by decide, by decide, ?_, by decide⟩
  decide

/-- C2 amended: when `cacheMax = 0` the ceiling check compares against
`now + 0 = now`, so any header-derived candidate later than `now` is clamped
down to `now` and the floor then raises it: for every successful header
computation, with `cacheMax = 0` and `cacheMin ≥ 0`, the installed expiry is
exactly `now + cacheMin` (matching the source comment that `CacheMax = 0`
means header-based caching is disabled, not "no ceiling"). -/
theorem cacheMaxZero_floor (cfg : Config) (now : Int) (hd : Header)
    (c : ClientState) (E : Int) (hmax : cfg.cacheMax = 0)
    (hmin : 0 ≤ cfg.cacheMin) (hE : expiresAfter now hd = .ok E) :
    (updateExpiresAfter cfg now (some hd) none c).cacheExpiresAfter
      = now + cfg.cacheMin := by
  have h : (updateExpiresAfter cfg now (some hd) none c).cacheExpiresAfter
      = if (if now + cfg.cacheMax < E then now + cfg.cacheMax else E) < now + cfg.cacheMin
        then now + cfg.cacheMin
        else (if now + cfg.cacheMax < E then now + cfg.cacheMax else E) := by
    simp [updateExpiresAfter, hE]
  rw [h, hmax]
  split_ifs <;> omega

/-- C2 amended witness: with `cacheMax = 0`, `cacheMin = 10`, a header
expiry of 1100 at time 1000 installs `1000 + 10`. -/
theorem cacheMaxZero_floor_witness :
    (updateExpiresAfter ⟨"u", 10, 0, 0, false, 300⟩ 1000
        (some ⟨"max-age=100", "", ""⟩) none initialState).cacheExpiresAfter
      = 1000 + 10 := by
  exact cacheMaxZero_floor ⟨"u", 10, 0, 0, false, 300⟩ 1000 ⟨"max-age=100", "", ""⟩
    initialState 1100 rfl (by decide) (by decide)

/-- C4: max-age/Age arithmetic: for a response whose Cache-Control carries
`max-age=N` and whose Age header carries `M` with `0 ≤ M ≤ N`, the expiry
computed from headers before any clamping is `now + (N - M)`; when the Age
header is absent it is `now + N`. -/
theorem maxAge_age_arithmetic (now : Int) (h : Header) (N M : Int)
    (hN : parseMaxAge h = .ok (some N)) :
    (parseAge h = .ok (some M) → 0 ≤ M → M ≤ N →
      expiresAfter now h = .ok (now + (N - M))) ∧
    (parseAge h = .ok none → expiresAfter now h = .ok (now + N)) := by
  constructor
  · intro hM h0 hMN
    have hneg : ¬ (N - M < 0) := by omega
    simp [expiresAfter, hN, hM, hneg]
  · intro hM
    simp [expiresAfter, hN, hM]

/-- C4 witness: headers `Cache-Control: max-age=120` and `Age: 30` give the
pre-clamp expiry `0 + (120 - 30)`; with no Age header, `max-age=60` gives
`0 + 60`. -/
theorem maxAge_age_arithmetic_witness :
    expiresAfter 0 ⟨"max-age=120", "30", ""⟩ = .ok (0 + (120 - 30)) ∧
    expiresAfter 0 ⟨"max-age=60", "", ""⟩ = .ok (0 + 60) := by
  constructor
  · exact (maxAge_age_arithmetic 0 ⟨"max-age=120", "30", ""⟩ 120 30 (by decide)).1
      (by decide) (by decide) (by decide)
  · exact (maxAge_age_arithmetic 0 ⟨"max-age=60", "", ""⟩ 60 0 (by decide)).2 (by decide)

/-- After a successful fetch at `now`, the expiry installed by
`updateExpiresAfter` is at least `now` when `cacheMin` is non-negative
(falling back to `now + cacheMin` on a header failure, or clamped between
floor and ceiling otherwise). -/
theorem updateExpiresAfter_ge_now_success (cfg : Config) (now : Int)
    (hd : Option Header) (c : ClientState) (hmin : 0 ≤ cfg.cacheMin) :
    now ≤ (updateExpiresAfter cfg now hd none c).cacheExpiresAfter := by
  unfold updateExpiresAfter
  rcases expiresAfter now (hd.getD emptyHeader) with e | E
  · simp only
    omega
  · simp only
    split_ifs <;> omega

/-- After a failed fetch at `now` with `cacheErrors > 0`, the installed
expiry is strictly later than `now`. -/
theorem updateExpiresAfter_gt_now_fail (cfg : Config) (now : Int)
    (hd : Option Header) (e : GoError) (c : ClientState)
    (herr : 0 < cfg.cacheErrors) :
    now < (updateExpiresAfter cfg now hd (some e) c).cacheExpiresAfter := by
  unfold updateExpiresAfter
  simp only [if_pos herr]
  omega

/-- C7 counterexample: with an expired cache at time 10 and
`cacheErrors = 0`, a first `Refresh(false)` whose fetch fails runs a fetch
and leaves the expiry unchanged, so the immediately following
`Refresh(false)` performs a second fetch and returns `(true, error)` rather
than `(false, nil)`: two calls in immediate succession perform two fetches. -/
theorem refresh_twice_counterexample :
    (Refresh ⟨"u", 10, 0, 0, false, 300⟩ 10 (.fail 1 none none) false
        initialState).2 = (true, some (GoError.fetchFailed 1)) ∧
    (Refresh ⟨"u", 10, 0, 0, false, 300⟩ 10 (.fail 1 none none) false
        (Refresh ⟨"u", 10, 0, 0, false, 300⟩ 10 (.fail 1 none none) false
          initialState).1).2 = (true, some (GoError.fetchFailed 1)) := by
  constructor
  · decide
  · decide

/-- C7 amended: freshness no-op: when the cache has not yet expired (`now`
is not after `cacheExpiresAfter`), `Refresh(false)` performs no fetch,
changes no cached field, and returns `(false, nil)`.  Consequently two
`Refresh(false)` calls in immediate succession perform at most one actual
fetch — the second returning `(false, nil)` — provided the first attempt
succeeded (with `cacheMin ≥ 0`) or failed with `cacheErrors > 0`; when the
first attempt fails and `cacheErrors = 0` the expiry is left in the past and
the second call fetches again. -/
theorem refresh_fresh_noop (cfg : Config) (now : Int) (f f2 : FetchOutcome)
    (c : ClientState) :
    (¬ c.cacheExpiresAfter < now → Refresh cfg now f false c = (c, false, none)) ∧
    ((f.err = none ∧ 0 ≤ cfg.cacheMin) ∨ (f.err.isSome ∧ 0 < cfg.cacheErrors) →
      Refresh cfg now f2 false (Refresh cfg now f false c).1
        = ((Refresh cfg now f false c).1, false, none)) := by
  have noop : ∀ g : FetchOutcome, ∀ c' : ClientState, ¬ c'.cacheExpiresAfter < now →
      Refresh cfg now g false c' = (c', false, none) := by
    intro g c' h
    unfold Refresh
    simp [h]
  constructor
  · exact noop f c
  · intro hcond
    by_cases hfresh : c.cacheExpiresAfter < now
    · rw [refresh_runs cfg now f false c (Or.inr hfresh)]
      apply noop
      rcases hcond with ⟨hnone, hmin⟩ | ⟨hsome, herr⟩
      · simp only [hnone, not_lt]
        exact updateExpiresAfter_ge_now_success cfg now f.headers _ hmin
      · rcases Option.isSome_iff_exists.mp hsome with ⟨e, he⟩
        simp only [he, not_lt]
        exact le_of_lt (updateExpiresAfter_gt_now_fail cfg now f.headers e _ herr)
    · rw [noop f c hfresh]
      exact noop f2 c hfresh

/-- C7 amended witness: with a cache fresh until 100, `Refresh(false)` at
time 50 is a no-op returning `(false, nil)`; and after a forced-by-expiry
first call at time 200 whose fetch succeeds, the immediate second call
returns `(false, nil)` on the updated state. -/
theorem refresh_fresh_noop_witness :
    Refresh ⟨"u", 60, 3600, 30, false, 300⟩ 50 (.fail 1 none none) false
        ⟨100, none, none, none, none, 0⟩
      = (⟨100, none, none, none, none, 0⟩, false, none) ∧
    Refresh ⟨"u", 60, 3600, 30, false, 300⟩ 200 (.fail 1 none none) false
        (Refresh ⟨"u", 60, 3600, 30, false, 300⟩ 200 (.ok ⟨5⟩ [] emptyHeader) false
          ⟨100, none, none, none, none, 0⟩).1
      = ((Refresh ⟨"u", 60, 3600, 30, false, 300⟩ 200 (.ok ⟨5⟩ [] emptyHeader) false
          ⟨100, none, none, none, none, 0⟩).1, false, none) := by
  constructor
  · exact (refresh_fresh_noop ⟨"u", 60, 3600, 30, false, 300⟩ 50 (.fail 1 none none)
      (.fail 1 none none) ⟨100, none, none, none, none, 0⟩).1 (by decide)
  · exact (refresh_fresh_noop ⟨"u", 60, 3600, 30, false, 300⟩ 200 (.ok ⟨5⟩ [] emptyHeader)
      (.fail 1 none none) ⟨100, none, none, none, none, 0⟩).2 (Or.inl ⟨rfl, by decide⟩)

end JwksClient
